import Mathlib

/-!
A verification development for the `pyasn_util_download.py` downloader:
a shallow embedding of the "find latest MRT/RIB artifact in a remote
directory tree" algorithm, followed by theorems about it.

Modelling conventions:
* A well-formed HTML directory-listing page is represented by the stream
  of start-tag events the underlying HTML parser would emit
  (`handle_starttag` is the only callback the program overrides), i.e. a
  list of `StartTag` records carrying the tag name and its attributes.
* The network is a deterministic mapping `pages : String → Option Html`
  from URLs to pages; `none` models an `URLError` that persists across
  the bounded retries of `get_html`.  The retry mechanism itself is
  modelled separately (`get_html`) with a per-attempt outcome oracle.
* Python strings are Lean `String`s; Python's lexicographic string
  comparison by code points is `leChars` on the underlying `List Char`.
* The regular expressions of the program are fixed-width patterns with
  no alternation, so `re.match` (anchored at the start, no backtracking)
  is embedded as a deterministic character-list matcher; `\d` is
  modelled as an ASCII decimal digit.
-/

/-- A start-tag event of the HTML parser: tag name plus attribute list. -/
structure StartTag where
  tag : String
  attrs : List (String × String)
deriving DecidableEq, Repr

/-- A well-formed listing page, as its stream of start-tag events. -/
abbrev Html := List StartTag

/-- Errors the embedded program can raise. -/
inductive ResolveErr where
  /-- `URLError` surviving all retries of `get_html`. -/
  | networkError : ResolveErr
  /-- `IndexError` from `list.pop()` on an empty candidate list. -/
  | indexError : ResolveErr
  /-- `AssertionError` from the `assert` in `find_latest_routeviews`. -/
  | assertionError : ResolveErr
deriving DecidableEq, Repr

/-- Take exactly `n` ASCII digits off the front of a character list,
returning them and the rest (embeds a `\d{n}` regex atom). -/
def takeDigits : Nat → List Char → Option (List Char × List Char)
  | 0, l => some ([], l)
  | _ + 1, [] => none
  | n + 1, c :: rest =>
    if c.isDigit then
      match takeDigits n rest with
      | some (ds, rest1) => some (c :: ds, rest1)
      | none => none
    else none

/-- Embeds `re.match` with the month pattern `(\d{4})\.(\d{2})` from
`BgpSiteHtmlParser.__init__` (`year_month` mode): anchored at the start
of the href, returning the two capture groups. -/
def month_match (href : String) : Option (String × String) :=
  match takeDigits 4 href.data with
  | some (y, rest) =>
    match rest with
    | '.' :: rest1 =>
      match takeDigits 2 rest1 with
      | some (m, _) => some (String.mk y, String.mk m)
      | none => none
    | _ => none
  | none => none

/-- Embeds `re.match` with the file pattern `rib\.(\d{8})\.(\d{4}).bz2` from
`BgpSiteHtmlParser.__init__` (non-`year_month` mode).  The dot before
`bz2` is NOT escaped in the source, so it matches any single character
except a newline. -/
def file_match (href : String) : Option (String × String) :=
  match href.data with
  | 'r' :: 'i' :: 'b' :: '.' :: rest =>
    match takeDigits 8 rest with
    | some (d, rest1) =>
      match rest1 with
      | '.' :: rest2 =>
        match takeDigits 4 rest2 with
        | some (t, rest3) =>
          match rest3 with
          | c :: 'b' :: 'z' :: '2' :: _ =>
            if c = '\n' then none else some (String.mk d, String.mk t)
          | _ => none
        | none => none
      | _ => none
    | none => none
  | _ => none

/-- Follows the spec's words, for comparison with `file_match`: the file
pattern written `^rib\.\d{8}\.\d{4}\.bz2`, i.e. with the dot before
`bz2` escaped so that only a literal dot may stand there. -/
def spec_file_match (href : String) : Option (String × String) :=
  match href.data with
  | 'r' :: 'i' :: 'b' :: '.' :: rest =>
    match takeDigits 8 rest with
    | some (d, rest1) =>
      match rest1 with
      | '.' :: rest2 =>
        match takeDigits 4 rest2 with
        | some (t, rest3) =>
          match rest3 with
          | '.' :: 'b' :: 'z' :: '2' :: _ => some (String.mk d, String.mk t)
          | _ => none
        | none => none
      | _ => none
    | none => none
  | _ => none

/-- The pattern selected in `BgpSiteHtmlParser.__init__` depending on
the `year_month` flag. -/
def regex_match (year_month : Bool) (href : String) : Option (String × String) :=
  if year_month then month_match href else file_match href

/-- The inner loop of `handle_starttag`: walk the attribute pairs of one
tag and collect the capture-group tuple of every `href` value the
selected pattern matches. -/
def href_matches (year_month : Bool) : List (String × String) → List (String × String)
  | [] => []
  | (attr, value) :: rest =>
    (if attr = "href" then
      match regex_match year_month value with
      | some ts => [ts]
      | none => []
    else []) ++ href_matches year_month rest

/-- Embeds `handle_starttag` restricted to one tag event: only anchor (`a`)
tags contribute candidates. -/
def tag_matches (year_month : Bool) (t : StartTag) : List (String × String) :=
  if t.tag = "a" then href_matches year_month t.attrs else []

/-- Feeding a whole page to the parser: the `timestamps` list it
accumulates, in document order. -/
def extract_candidates (year_month : Bool) : Html → List (String × String)
  | [] => []
  | t :: rest => tag_matches year_month t ++ extract_candidates year_month rest

/-- Embeds `BgpSiteHtmlParser.tuple_sort`: the sort key
`"{}{}".format(t[0], t[1])`, plain concatenation of the two fields. -/
def tuple_sort (t : String × String) : String := t.1 ++ t.2

/-- Python's lexicographic comparison of strings by code points, on the
underlying character lists: `leChars a b` is `a <= b`. -/
def leChars : List Char → List Char → Bool
  | [], _ => true
  | _ :: _, [] => false
  | a :: as, b :: bs =>
    if a < b then true
    else if b < a then false
    else leChars as bs

/-- Key comparison between timestamp tuples: comparison of the `tuple_sort`
keys. -/
def keyLe (s t : String × String) : Bool :=
  leChars (tuple_sort s).data (tuple_sort t).data

/-- Stable insertion into a key-sorted list (an element is inserted in
front of the key-equal elements already present, which come later in
the original list — matching the stability of Python's `list.sort`). -/
def insertByKey (a : String × String) : List (String × String) → List (String × String)
  | [] => [a]
  | b :: l => if keyLe a b then a :: b :: l else b :: insertByKey a l

/-- Embeds `self.timestamps.sort(key=self.tuple_sort)`: stable ascending sort
by the `tuple_sort` key. -/
def sortTimestamps : List (String × String) → List (String × String)
  | [] => []
  | b :: l => insertByKey b (sortTimestamps l)

/-- Embeds `BgpSiteHtmlParser.get_url_from_ym_tuple`:
`"{}.{}/RIBS".format(y, m)`. -/
def get_url_from_ym_tuple (t : String × String) : String :=
  t.1 ++ "." ++ t.2 ++ "/RIBS"

/-- Embeds `BgpSiteHtmlParser.get_latest_file_name`: sort the accumulated
timestamps, and if any remain pop the last one and format it as
`rib.<d>.<t>.bz2`; otherwise return the sentinel `"-1.-1"`. -/
def get_latest_file_name (ts : List (String × String)) : String :=
  match (sortTimestamps ts).getLast? with
  | some t => "rib." ++ t.1 ++ "." ++ t.2 ++ ".bz2"
  | none => "-1.-1"

/-- Boolean list-prefix test (used to express suffix tests on reversed
character lists). -/
def prefixOfB : List Char → List Char → Bool
  | [], _ => true
  | _ :: _, [] => false
  | a :: as, b :: bs => a == b && prefixOfB as bs

/-- Python's `str.endswith(pat)`. -/
def strEndsWith (s pat : String) : Bool :=
  prefixOfB pat.data.reverse s.data.reverse

/-- Python's substring test `pat in s`, on character lists. -/
def containsSub (pat : List Char) : List Char → Bool
  | [] => prefixOfB pat []
  | c :: rest => prefixOfB pat (c :: rest) || containsSub pat rest

/-- The fetch of `get_html` as seen by the resolver, against a
deterministic server `pages`: a page either loads (possibly after
retries, which then return the same text) or fails on every attempt, in
which case the `URLError` propagates. -/
def fetch_html (pages : String → Option Html) (url : String) : Except ResolveErr Html :=
  match pages url with
  | some h => .ok h
  | none => .error .networkError

/-- Embeds `BgpSiteHtmlParser.check_files_exists`: a URL already ending in
`bz2` trivially exists; otherwise fetch the page, feed it to a fresh
file-pattern parser, and report whether its latest file name is not the
`"-1.-1"` sentinel (a substring test in the source). -/
def check_files_exists (pages : String → Option Html) (latest_year_month_url : String) :
    Except ResolveErr Bool :=
  if strEndsWith latest_year_month_url "bz2" then .ok true
  else
    match pages latest_year_month_url with
    | none => .error .networkError
    | some html =>
      .ok (!containsSub "-1.-1".data
        (get_latest_file_name (extract_candidates false html)).data)

/-- The pop-and-probe loop of `get_latest_year_month`, running over the
sorted candidate list from its top (highest key first).  Popping an
empty list raises `IndexError`. -/
def pop_loop (pages : String → Option Html) (base_url : String) :
    List (String × String) → Except ResolveErr String
  | [] => .error .indexError
  | t :: rest =>
    match check_files_exists pages (base_url ++ "/" ++ get_url_from_ym_tuple t) with
    | .error e => .error e
    | .ok true => .ok (get_url_from_ym_tuple t)
    | .ok false => pop_loop pages base_url rest

/-- Embeds `BgpSiteHtmlParser.get_latest_year_month`: sort the month
candidates ascending by key, then repeatedly pop the greatest and probe
its `YYYY.MM/RIBS` page until the probe succeeds; return the relative
`YYYY.MM/RIBS` path. -/
def get_latest_year_month (pages : String → Option Html) (base_url : String)
    (ts : List (String × String)) : Except ResolveErr String :=
  pop_loop pages base_url (sortTimestamps ts).reverse

/-- Embeds `get_latest_year_month_url`: fetch the root listing, extract month
candidates, resolve the latest populated month, and join it to the
root URL. -/
def get_latest_year_month_url (pages : String → Option Html) (requested_url : String) :
    Except ResolveErr String :=
  match fetch_html pages requested_url with
  | .error e => .error e
  | .ok html =>
    match get_latest_year_month pages requested_url (extract_candidates true html) with
    | .error e => .error e
    | .ok ym => .ok (requested_url ++ "/" ++ ym)

/-- Embeds `get_latest_file_url`: fetch a month page and join the latest file
name to its URL. -/
def get_latest_file_url (pages : String → Option Html) (requested_url : String) :
    Except ResolveErr String :=
  match fetch_html pages requested_url with
  | .error e => .error e
  | .ok html =>
    .ok (requested_url ++ "/" ++ get_latest_file_name (extract_candidates false html))

/-- Embeds `find_latest_in_web`: build the base URL, resolve the latest
populated month URL, then the latest file URL inside it. -/
def find_latest_in_web (pages : String → Option Html) (server archive_root : String) :
    Except ResolveErr String :=
  match get_latest_year_month_url pages ("http://" ++ server ++ "/" ++ archive_root) with
  | .error e => .error e
  | .ok ym_url => get_latest_file_url pages ym_url

/-- Embeds `find_latest_routeviews`: the argument is `str(archive_ipv)` (the
source first coerces its argument to a string); the `assert` demands it
be `"4"` or `"6"` before any network activity, then the resolver runs
against the RouteViews server with the version-specific archive root. -/
def find_latest_routeviews (pages : String → Option Html) (archive_ipv : String) :
    Except ResolveErr String :=
  if ¬ (archive_ipv = "4" ∨ archive_ipv = "6") then .error .assertionError
  else
    find_latest_in_web pages "archive.routeviews.org"
      (if archive_ipv = "4" then "bgpdata" else "route-views6/bgpdata")

/-- Embeds `get_html` with its retry policy, against a per-attempt outcome
oracle `net` (attempt numbering starts at 0 for the initial try): on an
`URLError` (modelled with its message payload) the call recurses with
one fewer retry; with no retries left the last error is raised. -/
def get_html (net : String → Nat → Except String String) (requested_url : String)
    (attempt : Nat) (retries : Nat) : Except String String :=
  match net requested_url attempt with
  | .ok s => .ok s
  | .error e =>
    match retries with
    | r + 1 => get_html net requested_url (attempt + 1) r
    | 0 => .error e

/-! ### Concrete listing fixtures used in scenario theorems -/

/-- Root listing of the fallback scenario: month anchors `2024.03/` and
`2024.02/`. -/
def htmlRoot : Html := [⟨"a", [("href", "2024.03/")]⟩, ⟨"a", [("href", "2024.02/")]⟩]

/-- Month page of `2024.02` in the fallback scenario: one file anchor
`rib.20240215.1200.bz2`. -/
def htmlFeb : Html := [⟨"a", [("href", "rib.20240215.1200.bz2")]⟩]

/-- The fallback-scenario server: the `2024.03` month page is an empty
listing, the `2024.02` month page holds one file. -/
def pagesC1 (u : String) : Option Html :=
  if u = "http://server/root" then some htmlRoot
  else if u = "http://server/root/2024.03/RIBS" then some []
  else if u = "http://server/root/2024.02/RIBS" then some htmlFeb
  else none

/-- Root listing of the exhaustion scenario: a single month anchor. -/
def htmlRootC2 : Html := [⟨"a", [("href", "2024.01/")]⟩]

/-- The exhaustion-scenario server: the only month page is an empty
listing. -/
def pagesC2 (u : String) : Option Html :=
  if u = "http://h/a" then some htmlRootC2
  else if u = "http://h/a/2024.01/RIBS" then some []
  else none

/-- A network oracle that fails on the first two attempts and succeeds
on the third. -/
def netFlaky (_u : String) (i : Nat) : Except String String :=
  if i < 2 then .error "timeout" else .ok "listing"

/-- A network oracle that fails on every attempt. -/
def netDown (_u : String) (_i : Nat) : Except String String := .error "timeout"

/-! ### Order lemmas for the sort key -/

theorem leChars_refl (l : List Char) : leChars l l = true := by
  induction l with
  | nil => rfl
  | cons a as ih => simp [leChars, ih, lt_irrefl]

theorem leChars_total (a : List Char) : ∀ b, leChars a b = true ∨ leChars b a = true := by
  induction a with
  | nil => intro b; left; rfl
  | cons x xs ih =>
    intro b
    cases b with
    | nil => right; rfl
    | cons y ys =>
      by_cases h1 : x < y
      · left; simp [leChars, h1]
      · by_cases h2 : y < x
        · right; simp [leChars, h2]
        · have hxy : x = y := le_antisymm (le_of_not_lt h2) (le_of_not_lt h1)
          subst hxy
          rcases ih ys with h | h
          · left; simp [leChars, h, lt_irrefl]
          · right; simp [leChars, h, lt_irrefl]

theorem leChars_trans (a : List Char) :
    ∀ b c, leChars a b = true → leChars b c = true → leChars a c = true := by
  induction a with
  | nil => intro b c _ _; rfl
  | cons x xs ih =>
    intro b c hab hbc
    cases b with
    | nil => simp [leChars] at hab
    | cons y ys =>
      cases c with
      | nil => simp [leChars] at hbc
      | cons z zs =>
        by_cases hxy : x < y
        · by_cases hyz : y < z
          · simp [leChars, lt_trans hxy hyz]
          · by_cases hzy : z < y
            · simp [leChars, hyz, hzy] at hbc
            · have heq : y = z := le_antisymm (le_of_not_lt hzy) (le_of_not_lt hyz)
              subst heq
              simp [leChars, hxy]
        · by_cases hyx : y < x
          · simp [leChars, hxy, hyx] at hab
          · have heq : x = y := le_antisymm (le_of_not_lt hyx) (le_of_not_lt hxy)
            subst heq
            simp [leChars, lt_irrefl] at hab
            by_cases hxz : x < z
            · simp [leChars, hxz]
            · by_cases hzx : z < x
              · simp [leChars, hxz, hzx] at hbc
              · have heq2 : x = z := le_antisymm (le_of_not_lt hzx) (le_of_not_lt hxz)
                subst heq2
                simp [leChars, lt_irrefl] at hbc ⊢
                exact ih ys zs hab hbc

theorem keyLe_refl (t : String × String) : keyLe t t = true := leChars_refl _

theorem keyLe_total (s t : String × String) : keyLe s t = true ∨ keyLe t s = true :=
  leChars_total _ _

theorem keyLe_trans {a b c : String × String} (h1 : keyLe a b = true) (h2 : keyLe b c = true) :
    keyLe a c = true :=
  leChars_trans _ _ _ h1 h2

/-! ### Lemmas about the stable sort -/

theorem mem_insertByKey {x a : String × String} {l : List (String × String)} :
    x ∈ insertByKey a l ↔ x = a ∨ x ∈ l := by
  induction l with
  | nil => simp [insertByKey]
  | cons b bs ih =>
    by_cases h : keyLe a b
    · simp [insertByKey, h, List.mem_cons]
    · simp [insertByKey, h, List.mem_cons, ih]; tauto

theorem mem_sortTimestamps {x : String × String} {l : List (String × String)} :
    x ∈ sortTimestamps l ↔ x ∈ l := by
  induction l with
  | nil => simp [sortTimestamps]
  | cons b bs ih => simp [sortTimestamps, mem_insertByKey, ih]

theorem pairwise_insertByKey (a : String × String) {l : List (String × String)}
    (h : l.Pairwise (fun s t => keyLe s t = true)) :
    (insertByKey a l).Pairwise (fun s t => keyLe s t = true) := by
  induction l with
  | nil => simp [insertByKey]
  | cons b bs ih =>
    rcases List.pairwise_cons.mp h with ⟨hb, hbs⟩
    by_cases hab : keyLe a b
    · simp only [insertByKey, hab, if_true]
      refine List.pairwise_cons.mpr ⟨?_, h⟩
      intro u hu
      rcases List.mem_cons.mp hu with rfl | hu'
      · exact hab
      · exact keyLe_trans hab (hb u hu')
    · simp only [insertByKey, hab, if_false]
      refine List.pairwise_cons.mpr ⟨?_, ih hbs⟩
      intro u hu
      rcases mem_insertByKey.mp hu with hua | hu'
      · rw [hua]
        exact (keyLe_total a b).resolve_left (by simpa using hab)
      · exact hb u hu'

theorem pairwise_sortTimestamps (l : List (String × String)) :
    (sortTimestamps l).Pairwise (fun s t => keyLe s t = true) := by
  induction l with
  | nil => simp [sortTimestamps]
  | cons b bs ih => exact pairwise_insertByKey b ih

theorem pairwise_keyLe_getLast {l : List (String × String)}
    (hp : l.Pairwise (fun s t => keyLe s t = true)) (h : l ≠ []) :
    ∀ x ∈ l, keyLe x (l.getLast h) = true := by
  induction l with
  | nil => cases h rfl
  | cons a as ih =>
    intro x hx
    cases as with
    | nil =>
      rcases List.mem_cons.mp hx with rfl | hx'
      · exact keyLe_refl _
      · cases hx'
    | cons b bs =>
      rcases List.pairwise_cons.mp hp with ⟨ha, has⟩
      rw [List.getLast_cons (by simp)]
      rcases List.mem_cons.mp hx with rfl | hx'
      · exact ha _ (List.getLast_mem (by simp))
      · exact ih has (by simp) x hx'

theorem sortTimestamps_ne_nil {l : List (String × String)} (h : l ≠ []) :
    sortTimestamps l ≠ [] := by
  rcases List.exists_mem_of_ne_nil l h with ⟨x, hx⟩
  exact List.ne_nil_of_mem (mem_sortTimestamps.mpr hx)

/-- The selected file tuple of `get_latest_file_name` on a non-empty
candidate list: it is a candidate, it is greatest under the
`tuple_sort` key, and it is the one formatted into the result. -/
theorem get_latest_file_name_spec (ts : List (String × String)) (h : ts ≠ []) :
    ∃ t, t ∈ ts ∧ (∀ u ∈ ts, keyLe u t = true) ∧
      get_latest_file_name ts = "rib." ++ t.1 ++ "." ++ t.2 ++ ".bz2" := by
  have hs : sortTimestamps ts ≠ [] := sortTimestamps_ne_nil h
  refine ⟨(sortTimestamps ts).getLast hs, ?_, ?_, ?_⟩
  · exact mem_sortTimestamps.mp (List.getLast_mem hs)
  · intro u hu
    exact pairwise_keyLe_getLast (pairwise_sortTimestamps ts) hs u (mem_sortTimestamps.mpr hu)
  · unfold get_latest_file_name
    rw [List.getLast?_eq_getLast_of_ne_nil hs]

/-! ### Suffix-test lemmas -/

theorem prefixOfB_of_append {p q r : List Char} (h : prefixOfB (p ++ q) r = true) :
    prefixOfB p r = true := by
  induction p generalizing r with
  | nil => rfl
  | cons a as ih =>
    cases r with
    | nil => simp [prefixOfB] at h
    | cons b bs =>
      simp only [List.cons_append, prefixOfB, Bool.and_eq_true] at h ⊢
      exact ⟨h.1, ih h.2⟩

theorem prefixOfB_bz2_reverse_RIBS (l : List Char) :
    prefixOfB ("bz2" : String).data.reverse ((l ++ ("/RIBS" : String).data).reverse) = false := by
  have h1 : ("bz2" : String).data.reverse = ['2', 'z', 'b'] := rfl
  have h2 : ("/RIBS" : String).data = ['/', 'R', 'I', 'B', 'S'] := rfl
  have h3 : List.reverse ['/', 'R', 'I', 'B', 'S'] = ['S', 'B', 'I', 'R', '/'] := rfl
  rw [h1, h2, List.reverse_append, h3]
  rfl

/-- No probe URL built for a month candidate ends in `bz2`: it always
ends in `/RIBS`. -/
theorem check_url_not_bz2 (base_url : String) (t : String × String) :
    strEndsWith (base_url ++ "/" ++ get_url_from_ym_tuple t) "bz2" = false := by
  have hd : (base_url ++ "/" ++ get_url_from_ym_tuple t).data
      = (base_url.data ++ ("/" : String).data ++ t.1.data ++ ("." : String).data ++ t.2.data)
        ++ ("/RIBS" : String).data := by
    simp [get_url_from_ym_tuple, String.data_append, List.append_assoc]
  unfold strEndsWith
  rw [hd]
  exact prefixOfB_bz2_reverse_RIBS _

/-! ### Lemmas about the existence probe and the pop loop -/

/-- On a month-candidate probe URL that loads, `check_files_exists`
fetches the page and tests its latest file name against the sentinel. -/
theorem check_files_exists_month_some (pages : String → Option Html) (base_url : String)
    (t : String × String) (html : Html)
    (hp : pages (base_url ++ "/" ++ get_url_from_ym_tuple t) = some html) :
    check_files_exists pages (base_url ++ "/" ++ get_url_from_ym_tuple t) =
      .ok (!containsSub "-1.-1".data
        (get_latest_file_name (extract_candidates false html)).data) := by
  unfold check_files_exists
  simp [check_url_not_bz2, hp]

/-- On a month-candidate probe URL that never loads, the `URLError`
propagates out of `check_files_exists`. -/
theorem check_files_exists_month_none (pages : String → Option Html) (base_url : String)
    (t : String × String)
    (hp : pages (base_url ++ "/" ++ get_url_from_ym_tuple t) = none) :
    check_files_exists pages (base_url ++ "/" ++ get_url_from_ym_tuple t) =
      .error .networkError := by
  unfold check_files_exists
  simp [check_url_not_bz2, hp]

/-- A month page whose file listing is empty always fails the probe. -/
theorem check_files_exists_empty (pages : String → Option Html) (base_url : String)
    (t : String × String) (mh : Html)
    (hp : pages (base_url ++ "/" ++ get_url_from_ym_tuple t) = some mh)
    (he : extract_candidates false mh = []) :
    check_files_exists pages (base_url ++ "/" ++ get_url_from_ym_tuple t) = .ok false := by
  rw [check_files_exists_month_some pages base_url t mh hp, he]
  rfl

/-- Soundness of the pop loop: a returned month URL comes from a
candidate in the list whose probe succeeded. -/
theorem pop_loop_ok (pages : String → Option Html) (base_url : String) :
    ∀ l s, pop_loop pages base_url l = .ok s →
      ∃ t, t ∈ l ∧ s = get_url_from_ym_tuple t ∧
        check_files_exists pages (base_url ++ "/" ++ get_url_from_ym_tuple t) = .ok true := by
  intro l
  induction l with
  | nil => intro s h; simp [pop_loop] at h
  | cons t rest ih =>
    intro s h
    rw [pop_loop] at h
    cases hc : check_files_exists pages (base_url ++ "/" ++ get_url_from_ym_tuple t) with
    | error e => rw [hc] at h; cases h
    | ok b =>
      rw [hc] at h
      cases b with
      | true =>
        refine ⟨t, List.mem_cons_self .., ?_, hc⟩
        exact (Except.ok.inj h).symm
      | false =>
        rcases ih s h with ⟨u, hu, hs, hcu⟩
        exact ⟨u, List.mem_cons_of_mem _ hu, hs, hcu⟩

/-- If every candidate in the list fails the probe, the pop loop
exhausts the list and raises `IndexError`. -/
theorem pop_loop_all_fail (pages : String → Option Html) (base_url : String) :
    ∀ l, (∀ t ∈ l,
        check_files_exists pages (base_url ++ "/" ++ get_url_from_ym_tuple t) = .ok false) →
      pop_loop pages base_url l = .error .indexError := by
  intro l
  induction l with
  | nil => intro _; rfl
  | cons t rest ih =>
    intro h
    rw [pop_loop, h t (List.mem_cons_self ..)]
    exact ih fun u hu => h u (List.mem_cons_of_mem _ hu)

/-- Soundness of `get_latest_year_month`: a returned month path comes
from one of the extracted candidates, and the month page behind it was
fetched and found non-empty. -/
theorem get_latest_year_month_ok (pages : String → Option Html) (base_url : String)
    (ts : List (String × String)) (s : String)
    (h : get_latest_year_month pages base_url ts = .ok s) :
    ∃ t html, t ∈ ts ∧ s = get_url_from_ym_tuple t ∧
      pages (base_url ++ "/" ++ s) = some html ∧ extract_candidates false html ≠ [] := by
  rcases pop_loop_ok pages base_url _ s h with ⟨t, htl, hs, hc⟩
  have hts : t ∈ ts := mem_sortTimestamps.mp (List.mem_reverse.mp htl)
  cases hp : pages (base_url ++ "/" ++ get_url_from_ym_tuple t) with
  | none => rw [check_files_exists_month_none pages base_url t hp] at hc; cases hc
  | some html =>
    refine ⟨t, html, hts, hs, by rw [hs]; exact hp, ?_⟩
    intro he
    rw [check_files_exists_empty pages base_url t html hp he] at hc
    cases hc

/-! ### Characterization of candidate extraction -/

theorem mem_href_matches (b : Bool) (attrs : List (String × String)) (p : String × String) :
    p ∈ href_matches b attrs ↔
      ∃ av ∈ attrs, av.1 = "href" ∧ regex_match b av.2 = some p := by
  induction attrs with
  | nil => simp [href_matches]
  | cons av rest ih =>
    obtain ⟨attr, value⟩ := av
    by_cases h : attr = "href"
    · subst h
      cases hr : regex_match b value with
      | some ts => simp [href_matches, hr, ih]; tauto
      | none => simp [href_matches, hr, ih]
    · simp [href_matches, h, ih]

theorem mem_extract_candidates (b : Bool) (html : Html) (p : String × String) :
    p ∈ extract_candidates b html ↔
      ∃ t ∈ html, t.tag = "a" ∧ ∃ av ∈ t.attrs, av.1 = "href" ∧ regex_match b av.2 = some p := by
  induction html with
  | nil => simp [extract_candidates]
  | cons t rest ih =>
    simp only [extract_candidates, List.mem_append, tag_matches, ih, List.mem_cons]
    by_cases h : t.tag = "a"
    · simp [h, mem_href_matches]
    · simp [h]

/-! ### Step lemmas for the retrying fetch -/

theorem get_html_ok (net : String → Nat → Except String String) (url : String)
    (attempt retries : Nat) (s : String) (h : net url attempt = .ok s) :
    get_html net url attempt retries = .ok s := by
  unfold get_html
  rw [h]

theorem get_html_error_step (net : String → Nat → Except String String) (url : String)
    (attempt r : Nat) (e : String) (h : net url attempt = .error e) :
    get_html net url attempt (r + 1) = get_html net url (attempt + 1) r := by
  conv_lhs => unfold get_html
  rw [h]

theorem get_html_error_last (net : String → Nat → Except String String) (url : String)
    (attempt : Nat) (e : String) (h : net url attempt = .error e) :
    get_html net url attempt 0 = .error e := by
  unfold get_html
  rw [h]

/-! ### Claim theorems -/

/-- Claim C1: `find_latest` never returns a URL built from a month candidate
whose file listing is empty — any month path it returns names a month
page that was fetched and yielded a non-empty file-candidate set — and
in the concrete fallback scenario (root candidates `2024.03` and
`2024.02`, `2024.03/RIBS` empty, `2024.02/RIBS` holding
`rib.20240215.1200.bz2`) the resolver falls back and returns
`.../2024.02/RIBS/rib.20240215.1200.bz2`. -/
theorem c1_never_selects_empty_month :
    (∀ (pages : String → Option Html) (base_url : String) (ts : List (String × String))
        (s : String),
      get_latest_year_month pages base_url ts = .ok s →
      ∃ t html, t ∈ ts ∧ s = get_url_from_ym_tuple t ∧
        pages (base_url ++ "/" ++ s) = some html ∧ extract_candidates false html ≠ []) ∧
    find_latest_in_web pagesC1 "server" "root" =
      .ok "http://server/root/2024.02/RIBS/rib.20240215.1200.bz2" :=
  ⟨get_latest_year_month_ok, rfl⟩

/-- Claim C1 witness: the general invariant applied to the concrete fallback
scenario, where the resolver answers `2024.02/RIBS`. -/
theorem c1_witness :
    ∃ t html, t ∈ extract_candidates true htmlRoot ∧ "2024.02/RIBS" = get_url_from_ym_tuple t ∧
      pagesC1 ("http://server/root" ++ "/" ++ "2024.02/RIBS") = some html ∧
      extract_candidates false html ≠ [] :=
  c1_never_selects_empty_month.1 pagesC1 "http://server/root"
    (extract_candidates true htmlRoot) "2024.02/RIBS" rfl

/-- Claim C2: if every month candidate extracted from the root listing has an
empty file listing on its month page, `find_latest` raises the
exhausted-candidates condition (the `IndexError` of popping an empty
list) and never returns an artifact URL. -/
theorem c2_exhaustion_raises :
    ∀ (pages : String → Option Html) (server archive_root : String) (rootHtml : Html),
      pages ("http://" ++ server ++ "/" ++ archive_root) = some rootHtml →
      (∀ t ∈ extract_candidates true rootHtml,
        ∃ mh, pages (("http://" ++ server ++ "/" ++ archive_root) ++ "/" ++
            get_url_from_ym_tuple t) = some mh ∧
          extract_candidates false mh = []) →
      find_latest_in_web pages server archive_root = .error .indexError := by
  intro pages server archive_root rootHtml hroot hall
  have h1 : get_latest_year_month pages ("http://" ++ server ++ "/" ++ archive_root)
      (extract_candidates true rootHtml) = .error .indexError := by
    unfold get_latest_year_month
    apply pop_loop_all_fail
    intro t ht
    have hts : t ∈ extract_candidates true rootHtml :=
      mem_sortTimestamps.mp (List.mem_reverse.mp ht)
    rcases hall t hts with ⟨mh, hp, he⟩
    exact check_files_exists_empty _ _ _ _ hp he
  simp [find_latest_in_web, get_latest_year_month_url, fetch_html, hroot, h1]

/-- Claim C2 witness: a server whose only month page is an empty listing
makes the resolver raise the exhausted-candidates condition. -/
theorem c2_witness : find_latest_in_web pagesC2 "h" "a" = .error .indexError :=
  c2_exhaustion_raises pagesC2 "h" "a" htmlRootC2 rfl (by
    intro t ht
    have he : extract_candidates true htmlRootC2 = [("2024", "01")] := rfl
    rw [he] at ht
    simp only [List.mem_singleton] at ht
    subst ht
    exact ⟨[], rfl, rfl⟩)

/-- Claim C3 counterexample: the anchor href `rib.20240315.1200xbz2` does not
match the spec's pattern `^rib\.\d{8}\.\d{4}\.bz2`, yet candidate
extraction with the file pattern yields the pair `(20240315, 1200)`
from it, because the source leaves the dot before `bz2` unescaped. -/
theorem c3_counterexample :
    extract_candidates false [⟨"a", [("href", "rib.20240315.1200xbz2")]⟩]
        = [("20240315", "1200")] ∧
    spec_file_match "rib.20240315.1200xbz2" = none :=
  ⟨rfl, rfl⟩

/-- Claim C3 (amended): for all well-formed file-listing HTML inputs,
candidate extraction with the file pattern returns exactly the
`(YYYYMMDD, HHMM)` pairs taken from anchor hrefs matched by
`rib\.(\d{8})\.(\d{4}).bz2` at the start — where the character before
`bz2` may be any character except a newline, not only a literal dot —
and no other pairs. -/
theorem c3_file_extraction_exact (html : Html) (p : String × String) :
    p ∈ extract_candidates false html ↔
      ∃ t ∈ html, t.tag = "a" ∧ ∃ av ∈ t.attrs, av.1 = "href" ∧ file_match av.2 = some p := by
  simpa [regex_match] using mem_extract_candidates false html p

/-- Claim C4: a fetch failing transiently on the first two attempts and
succeeding on the third returns the successful result; a fetch failing
on all 3 attempts raises the last underlying network error; and the
result of `get_html` with the default 2 retries depends only on the
first three attempts (at most 2 retries beyond the initial attempt). -/
theorem c4_retry_policy :
    (∀ (net : String → Nat → Except String String) (url e0 e1 s : String),
      net url 0 = .error e0 → net url 1 = .error e1 → net url 2 = .ok s →
      get_html net url 0 2 = .ok s) ∧
    (∀ (net : String → Nat → Except String String) (url e0 e1 e2 : String),
      net url 0 = .error e0 → net url 1 = .error e1 → net url 2 = .error e2 →
      get_html net url 0 2 = .error e2) ∧
    (∀ (net net' : String → Nat → Except String String) (url : String),
      (∀ i, i ≤ 2 → net url i = net' url i) →
      get_html net url 0 2 = get_html net' url 0 2) := by
  refine ⟨?_, ?_, ?_⟩
  · intro net url e0 e1 s h0 h1 h2
    have s0 : get_html net url 0 2 = get_html net url 1 1 :=
      get_html_error_step net url 0 1 e0 h0
    have s1 : get_html net url 1 1 = get_html net url 2 0 :=
      get_html_error_step net url 1 0 e1 h1
    rw [s0, s1]
    exact get_html_ok net url 2 0 s h2
  · intro net url e0 e1 e2 h0 h1 h2
    have s0 : get_html net url 0 2 = get_html net url 1 1 :=
      get_html_error_step net url 0 1 e0 h0
    have s1 : get_html net url 1 1 = get_html net url 2 0 :=
      get_html_error_step net url 1 0 e1 h1
    rw [s0, s1]
    exact get_html_error_last net url 2 e2 h2
  · intro net net' url h
    have h0 := h 0 (by omega)
    have h1 := h 1 (by omega)
    have h2 := h 2 (by omega)
    cases hc0 : net' url 0 with
    | ok s => rw [get_html_ok net url 0 2 s (h0.trans hc0), get_html_ok net' url 0 2 s hc0]
    | error e =>
      rw [get_html_error_step net url 0 1 e (h0.trans hc0),
        get_html_error_step net' url 0 1 e hc0]
      cases hc1 : net' url 1 with
      | ok s => rw [get_html_ok net url 1 1 s (h1.trans hc1), get_html_ok net' url 1 1 s hc1]
      | error e1 =>
        rw [get_html_error_step net url 1 0 e1 (h1.trans hc1),
          get_html_error_step net' url 1 0 e1 hc1]
        cases hc2 : net' url 2 with
        | ok s => rw [get_html_ok net url 2 0 s (h2.trans hc2), get_html_ok net' url 2 0 s hc2]
        | error e2 =>
          rw [get_html_error_last net url 2 e2 (h2.trans hc2),
            get_html_error_last net' url 2 e2 hc2]

/-- Claim C4 witness: the retry policy applied to a network that fails twice
then succeeds, to a network that always fails, and to two identical
oracles. -/
theorem c4_witness :
    get_html netFlaky "http://u" 0 2 = .ok "listing" ∧
    get_html netDown "http://u" 0 2 = .error "timeout" ∧
    get_html netFlaky "http://u" 0 2 = get_html netFlaky "http://u" 0 2 :=
  ⟨c4_retry_policy.1 netFlaky "http://u" "timeout" "timeout" "listing" rfl rfl rfl,
   c4_retry_policy.2.1 netDown "http://u" "timeout" "timeout" "timeout" rfl rfl rfl,
   c4_retry_policy.2.2 netFlaky netFlaky "http://u" (fun _ _ => rfl)⟩

/-- Claim C5: among the candidates of a listing the selection always takes a
maximum under lexicographic comparison of the concatenation of the two
tuple fields (ascending sort by that key, pop the last element), and on
the month page holding `rib.20240310.0000.bz2` and
`rib.20240315.1200.bz2` the `20240315.1200` file is selected. -/
theorem c5_selects_key_maximum :
    (∀ ts : List (String × String), ts ≠ [] →
      ∃ t, t ∈ ts ∧ (∀ u ∈ ts, keyLe u t = true) ∧
        get_latest_file_name ts = "rib." ++ t.1 ++ "." ++ t.2 ++ ".bz2") ∧
    get_latest_file_name (extract_candidates false
        [⟨"a", [("href", "rib.20240310.0000.bz2")]⟩,
         ⟨"a", [("href", "rib.20240315.1200.bz2")]⟩])
      = "rib.20240315.1200.bz2" :=
  ⟨get_latest_file_name_spec, rfl⟩

/-- Claim C5 witness: the key-maximum property applied to the two file
tuples of the scenario. -/
theorem c5_witness :
    ∃ t, t ∈ [("20240310", "0000"), ("20240315", "1200")] ∧
      (∀ u ∈ [("20240310", "0000"), ("20240315", "1200")], keyLe u t = true) ∧
      get_latest_file_name [("20240310", "0000"), ("20240315", "1200")]
        = "rib." ++ t.1 ++ "." ++ t.2 ++ ".bz2" :=
  c5_selects_key_maximum.1 _ (by simp)

/-- Claim C6: for all well-formed month-listing HTML inputs, candidate
extraction with the month pattern returns exactly the `(YYYY, MM)`
pairs from anchor hrefs matching `^(\d{4})\.(\d{2})`, non-matching
anchors being ignored without error; in particular a root listing with
anchors `2024.01/`, `2024.03/` and `other/` yields exactly the pairs
`(2024,01)` and `(2024,03)`. -/
theorem c6_month_extraction_exact :
    (∀ (html : Html) (p : String × String),
      p ∈ extract_candidates true html ↔
        ∃ t ∈ html, t.tag = "a" ∧ ∃ av ∈ t.attrs, av.1 = "href" ∧ month_match av.2 = some p) ∧
    extract_candidates true
        [⟨"a", [("href", "2024.01/")]⟩, ⟨"a", [("href", "2024.03/")]⟩,
         ⟨"a", [("href", "other/")]⟩]
      = [("2024", "01"), ("2024", "03")] :=
  ⟨fun html p => by simpa [regex_match] using mem_extract_candidates true html p, rfl⟩

/-- Claim C7: the resolver is deterministic over its inputs — two runs of
`find_latest_in_web` with the same server and archive-root arguments
against an unchanged mapping from URLs to listing pages yield the
identical artifact URL. -/
theorem c7_resolver_deterministic :
    ∀ (pages pages' : String → Option Html) (server archive_root : String),
      (∀ u, pages u = pages' u) →
      find_latest_in_web pages server archive_root =
        find_latest_in_web pages' server archive_root := by
  intro pages pages' server archive_root h
  rw [funext h]

/-- Claim C7 witness: two runs against the fallback-scenario server agree. -/
theorem c7_witness :
    find_latest_in_web pagesC1 "server" "root" = find_latest_in_web pagesC1 "server" "root" :=
  c7_resolver_deterministic pagesC1 pagesC1 "server" "root" (fun _ => rfl)

/-- Claim C8: for every URL that already ends in `.bz2`, the existence probe
returns true, and it does so without fetching any HTML — its result
does not depend on the page mapping at all. -/
theorem c8_dot_bz2_short_circuit :
    ∀ (pages pages' : String → Option Html) (url : String),
      strEndsWith url ".bz2" = true →
      check_files_exists pages url = .ok true ∧
      check_files_exists pages url = check_files_exists pages' url := by
  intro pages pages' url h
  have hb : strEndsWith url "bz2" = true := by
    unfold strEndsWith at h ⊢
    have hsplit : (".bz2" : String).data.reverse = ("bz2" : String).data.reverse ++ ['.'] := rfl
    rw [hsplit] at h
    exact prefixOfB_of_append h
  constructor <;> simp [check_files_exists, hb]

/-- Claim C8 witness: the probe short-circuits on a URL ending in `.bz2`,
independently of the server. -/
theorem c8_witness :
    check_files_exists pagesC1 "http://server/rib.20240101.0000.bz2" = .ok true ∧
    check_files_exists pagesC1 "http://server/rib.20240101.0000.bz2" =
      check_files_exists (fun _ => none) "http://server/rib.20240101.0000.bz2" :=
  c8_dot_bz2_short_circuit pagesC1 (fun _ => none) "http://server/rib.20240101.0000.bz2" rfl

/-- Claim C9: `find_latest_routeviews` takes `str(a)`; if that string is
neither `"4"` nor `"6"` it raises `AssertionError` before any network
fetch (its result does not depend on the page mapping), and under the
precondition it proceeds to the resolution against the RouteViews
archive root for that IP version. -/
theorem c9_assert_guard :
    ∀ (pages pages' : String → Option Html) (s : String),
      (s ≠ "4" → s ≠ "6" →
        find_latest_routeviews pages s = .error .assertionError ∧
        find_latest_routeviews pages s = find_latest_routeviews pages' s) ∧
      ((s = "4" ∨ s = "6") →
        find_latest_routeviews pages s =
          find_latest_in_web pages "archive.routeviews.org"
            (if s = "4" then "bgpdata" else "route-views6/bgpdata")) := by
  intro pages pages' s
  constructor
  · intro h4 h6
    constructor <;> simp [find_latest_routeviews, h4, h6]
  · intro h
    rcases h with rfl | rfl
    · simp [find_latest_routeviews]
    · simp [find_latest_routeviews]

/-- Claim C9 witness: the assertion fires on `"5"` with no dependence on the
server, and `"4"` proceeds to the IPv4 resolution. -/
theorem c9_witness :
    (find_latest_routeviews pagesC1 "5" = .error .assertionError ∧
     find_latest_routeviews pagesC1 "5" = find_latest_routeviews (fun _ => none) "5") ∧
    find_latest_routeviews pagesC1 "4" =
      find_latest_in_web pagesC1 "archive.routeviews.org" "bgpdata" :=
  ⟨(c9_assert_guard pagesC1 (fun _ => none) "5").1 (by decide) (by decide),
   by
    have h := (c9_assert_guard pagesC1 pagesC1 "4").2 (Or.inl rfl)
    simpa using h⟩

/-- Claim C10: the trivially-existing short-circuit of the existence probe
applies to any URL whose last three characters are `bz2`, with or
without a preceding dot: the probe returns true without fetching any
HTML. -/
theorem c10_bz2_any_suffix :
    ∀ (pages pages' : String → Option Html) (url : String),
      strEndsWith url "bz2" = true →
      check_files_exists pages url = .ok true ∧
      check_files_exists pages url = check_files_exists pages' url := by
  intro pages pages' url h
  constructor <;> simp [check_files_exists, h]

/-- Claim C10 witness: a URL ending in `xbz2` (no dot before `bz2`) also
short-circuits the probe, independently of the server. -/
theorem c10_witness :
    check_files_exists pagesC1 "http://server/archivexbz2" = .ok true ∧
    check_files_exists pagesC1 "http://server/archivexbz2" =
      check_files_exists (fun _ => none) "http://server/archivexbz2" :=
  c10_bz2_any_suffix pagesC1 (fun _ => none) "http://server/archivexbz2" rfl
